import Mathlib

/-!
Shallow embedding of the concurrency-control core of the
Multi-threaded Transaction Processor (Python sources under `src/`):
the lock manager (`ccc/lock_manager.py`), the 2PL executor
(`ccc/twopl_manager.py`), the OCC executor (`occ/occ_manager.py`),
the transaction model (`transaction/transaction.py`), the workload
driver (`workload/workload_executor.py`), the metrics collector
(`metrics/metrics.py`) and the configuration object (`config.py`).

Python dictionaries are modelled as association lists, Python dynamic
values as the inductive `PyVal`, and Python exceptions as explicit
error results (`PyErr`).  Mutation is modelled by explicit state
passing; every function returns the state as mutated up to the point
where an exception (if any) was raised, mirroring the fact that a
Python exception leaves earlier mutations in place.
-/

/-- Python dynamic values as they occur in the store and in transaction
buffers: `None`, integers, strings and string-keyed dictionaries. -/
inductive PyVal where
  | none : PyVal
  | int (n : Int) : PyVal
  | str (s : String) : PyVal
  | dict (fields : List (String × PyVal)) : PyVal

/-- Python exceptions raised by the embedded operations. `keyError`
models `KeyError` (missing dictionary key); `typeError` models
`TypeError` (unsupported operand, e.g. `None - float`, `dict + int`,
or a comparison against an unassigned/`None` timestamp). -/
inductive PyErr where
  | keyError : PyErr
  | typeError : PyErr
deriving DecidableEq, Repr

/-- Python dictionary assignment `d[k] = v` on an association list:
overwrite the (first) binding in place when the key is present, append
a new binding at the end otherwise. -/
def alistSet {β : Type} (l : List (String × β)) (k : String) (v : β) :
    List (String × β) :=
  match l with
  | [] => [(k, v)]
  | p :: t => if p.1 = k then (k, v) :: t else p :: alistSet t k v

namespace LockManager

/-- The lock table `self.locks`: a Python dict from key to a boolean
held-flag (`ccc/lock_manager.py`). -/
abbrev LockState := List (String × Bool)

/-- The `self.locks = {}` in `LockManager.__init__`. -/
def init : LockState := []

/-- The `self.locks.get(key, False)`: the held-flag of a key, defaulting to
`False` for keys never inserted. -/
def locksGet (locks : LockState) (k : String) : Bool :=
  (List.lookup k locks).getD false

/-- The `LockManager.try_acquire_all` (`ccc/lock_manager.py` lines 9–19):
under the global mutex, return `False` (leaving the table untouched)
as soon as some requested key is held; otherwise set every requested
key's flag to `True` and return `True`. -/
def try_acquire_all (locks : LockState) (keys : List String) : Bool × LockState :=
  if keys.any (fun k => locksGet locks k) then (false, locks)
  else (true, keys.foldl (fun l k => alistSet l k true) locks)

/-- The `LockManager.release_all` (`ccc/lock_manager.py` lines 21–24):
under the global mutex, set every requested key's flag to `False`. -/
def release_all (locks : LockState) (keys : List String) : LockState :=
  keys.foldl (fun l k => alistSet l k false) locks

end LockManager

/-- Contents of the key-value store (`storage/database.py`): keys to
JSON-decoded records.  The embedded RockStore plus its JSON
encode/decode round-trip is modelled as the mapping it realises. -/
abbrev Store := List (String × PyVal)

/-- The `KeyValueDB.get`: the stored value, or Python `None` when the key
is absent. -/
def Store.get (db : Store) (k : String) : PyVal :=
  (List.lookup k db).getD PyVal.none

/-- The `KeyValueDB.put`. -/
def Store.put (db : Store) (k : String) (v : PyVal) : Store :=
  alistSet db k v

/-- The `transaction/transaction.py`: read/write key lists fixed at
creation, a per-attempt value buffer, OCC timestamps (unassigned until
`OCCManager.execute` sets them, modelled as `Option`), and wall-clock
creation/completion times (modelled as rationals). -/
structure Transaction where
  id : String
  read_set : List String
  write_set : List String
  local_buffer : List (String × PyVal)
  start_ts : Option Int
  commit_ts : Option Int
  start_time : Rat
  end_time : Option Rat

/-- The `Transaction.__init__` (`transaction/transaction.py` lines 5–11):
`local_buffer = {}`, `end_time = None`; `created` is the value of
`time.time()` at construction. -/
def Transaction.create (txn_id : String) (read_keys write_keys : List String)
    (created : Rat) : Transaction :=
  { id := txn_id, read_set := read_keys, write_set := write_keys,
    local_buffer := [], start_ts := Option.none, commit_ts := Option.none,
    start_time := created, end_time := Option.none }

/-- The `Transaction.complete`: record the completion wall-clock time. -/
def Transaction.complete (t : Transaction) (now : Rat) : Transaction :=
  { t with end_time := some now }

/-- The `Transaction.response_time`: `self.end_time - self.start_time`.
When `complete` was never called, `end_time` is `None` and the
subtraction `None - float` raises `TypeError`. -/
def Transaction.response_time (t : Transaction) : Except PyErr Rat :=
  match t.end_time with
  | Option.none => Except.error PyErr.typeError
  | some e => Except.ok (e - t.start_time)

/-- The `txn.local_buffer[key]["value"] = v`: look up the slot for `key`
(`KeyError` when absent — the constructor leaves the buffer empty and
no code ever creates a slot), require it to be a dict (`TypeError`
otherwise) and set its `"value"` field. -/
def bufSetValue (buf : List (String × PyVal)) (key : String) (v : PyVal) :
    Except PyErr (List (String × PyVal)) :=
  match List.lookup key buf with
  | Option.none => Except.error PyErr.keyError
  | some (PyVal.dict fs) =>
    Except.ok (alistSet buf key (PyVal.dict (alistSet fs "value" v)))
  | some _ => Except.error PyErr.typeError

/-- Python `x + 1`: defined on integers, `TypeError` on any other
operand (`None`, strings, dicts). -/
def pyAdd1 : PyVal → Except PyErr PyVal
  | PyVal.int n => Except.ok (PyVal.int (n + 1))
  | _ => Except.error PyErr.typeError

/-- The `txn.local_buffer[key]["value"] += 1`: look up the slot
(`KeyError` when absent), require a dict, look up its `"value"` field
(`KeyError` when absent) and increment it. -/
def bufIncValue (buf : List (String × PyVal)) (key : String) :
    Except PyErr (List (String × PyVal)) :=
  match List.lookup key buf with
  | Option.none => Except.error PyErr.keyError
  | some (PyVal.dict fs) =>
    match List.lookup "value" fs with
    | Option.none => Except.error PyErr.keyError
    | some v =>
      match pyAdd1 v with
      | Except.error e => Except.error e
      | Except.ok v2 =>
        Except.ok (alistSet buf key (PyVal.dict (alistSet fs "value" v2)))
  | some _ => Except.error PyErr.typeError

/-- The read loop shared verbatim by both executors
(`occ_manager.py` lines 20–21, `twopl_manager.py` lines 17–19):
`for key in txn.read_set: txn.local_buffer[key]["value"] = self.db.get(key)`.
On an exception, the buffer as mutated so far is returned with the
error, mirroring Python's in-place mutation. -/
def readPhase (db : Store) : List String → List (String × PyVal) →
    List (String × PyVal) × Option PyErr
  | [], buf => (buf, Option.none)
  | k :: ks, buf =>
    match bufSetValue buf k (Store.get db k) with
    | Except.error e => (buf, some e)
    | Except.ok buf2 => readPhase db ks buf2

/-- The increment loop shared verbatim by both executors
(`occ_manager.py` lines 23–25, `twopl_manager.py` lines 21–22):
`for key in txn.write_set: txn.local_buffer[key]["value"] += 1`. -/
def computePhase : List String → List (String × PyVal) →
    List (String × PyVal) × Option PyErr
  | [], buf => (buf, Option.none)
  | k :: ks, buf =>
    match bufIncValue buf k with
    | Except.error e => (buf, some e)
    | Except.ok buf2 => computePhase ks buf2

/-- The write-back loop shared verbatim by both executors
(`occ_manager.py` lines 32–34, `twopl_manager.py` lines 24–25):
`for key in txn.write_set: self.db.put(key, txn.local_buffer[key])`.
On an exception, the store as mutated so far is returned. -/
def writePhase (buf : List (String × PyVal)) : List String → Store →
    Store × Option PyErr
  | [], db => (db, Option.none)
  | k :: ks, db =>
    match List.lookup k buf with
    | Option.none => (db, some PyErr.keyError)
    | some v => writePhase buf ks (Store.put db k v)

/-- Truthiness of `set(a) & set(b)` (`occ_manager.py` line 45): the two
key lists share at least one element. -/
def setsIntersect (a b : List String) : Bool :=
  a.any (fun k => b.contains k)

/-- Python `x > y` on the OCC timestamps.  A timestamp that was never
assigned is modelled as `Option.none`; using it in a comparison is an
error (CPython would raise before the comparison since the attribute
does not exist yet). -/
def pyGt : Option Int → Option Int → Except PyErr Bool
  | some a, some b => Except.ok (decide (a > b))
  | _, _ => Except.error PyErr.typeError

/-- The mutable state of `OCCManager` (`occ/occ_manager.py`): the
append-only commit history and the monotonic timestamp counter. -/
structure OCCState where
  committed_txns : List Transaction
  timestamp : Int

namespace OCCManager

/-- The `OCCManager.__init__`: empty history, counter at 0. -/
def init : OCCState := { committed_txns := [], timestamp := 0 }

/-- The `OCCManager.validate` (`occ_manager.py` lines 43–48): scan the
commit history; fail as soon as some committed transaction has
`commit_ts > txn.start_ts` and a write set intersecting `txn`'s read
set. -/
def validate (committed : List Transaction) (txn : Transaction) :
    Except PyErr Bool :=
  match committed with
  | [] => Except.ok true
  | c :: rest =>
    match pyGt c.commit_ts txn.start_ts with
    | Except.error e => Except.error e
    | Except.ok true =>
      if setsIntersect c.write_set txn.read_set then Except.ok false
      else validate rest txn
    | Except.ok false => validate rest txn

end OCCManager

/-- Result of one `OCCManager.execute` call: the returned boolean (or
the exception raised), together with the transaction, manager state
and store as mutated up to that point. -/
structure OCCOut where
  result : Except PyErr Bool
  txn : Transaction
  st : OCCState
  db : Store

/-- The `OCCManager.execute` (`occ_manager.py` lines 13–41): assign
`start_ts` and bump the counter; run the read phase, the increment
phase, then (under the validation lock) `validate`; on success run the
write phase, assign `commit_ts` (bumping the counter again) and append
the transaction to the history.  Each phase's exception propagates,
keeping all mutations made before it. -/
def OCCManager.execute (st : OCCState) (db : Store) (txn : Transaction) : OCCOut :=
  let txn1 : Transaction := { txn with start_ts := some st.timestamp }
  let st1 : OCCState := { st with timestamp := st.timestamp + 1 }
  match readPhase db txn1.read_set txn1.local_buffer with
  | (buf, some e) => ⟨Except.error e, { txn1 with local_buffer := buf }, st1, db⟩
  | (buf, Option.none) =>
    match computePhase txn1.write_set buf with
    | (buf2, some e) => ⟨Except.error e, { txn1 with local_buffer := buf2 }, st1, db⟩
    | (buf2, Option.none) =>
      let txn2 : Transaction := { txn1 with local_buffer := buf2 }
      match OCCManager.validate st1.committed_txns txn2 with
      | Except.error e => ⟨Except.error e, txn2, st1, db⟩
      | Except.ok false => ⟨Except.ok false, txn2, st1, db⟩
      | Except.ok true =>
        match writePhase buf2 txn2.write_set db with
        | (db2, some e) => ⟨Except.error e, txn2, st1, db2⟩
        | (db2, Option.none) =>
          let txn3 : Transaction := { txn2 with commit_ts := some st1.timestamp }
          let st2 : OCCState :=
            { st1 with timestamp := st1.timestamp + 1,
                       committed_txns := st1.committed_txns ++ [txn3] }
          ⟨Except.ok true, txn3, st2, db2⟩

/-- Result of one `TwoPLManager.execute` call once the lock
acquisition loop has exited. -/
structure TPLOut where
  result : Except PyErr Bool
  locks : LockManager.LockState
  txn : Transaction
  db : Store

/-- The `TwoPLManager.execute` (`ccc/twopl_manager.py` lines 10–29):
`all_keys = list(set(read_set + write_set))`, spin (with randomized
sleep) until `try_acquire_all` succeeds, run the read / increment /
write-back loops, release all keys and return `True`.  In this
single-threaded embedding a failed acquisition repeats forever against
an unchanged table, so permanent blocking is modelled as `none`.  An
exception in the body propagates with the locks still held (there is
no try/finally around `release_all`). -/
def TwoPLManager.execute (locks : LockManager.LockState) (db : Store)
    (txn : Transaction) : Option TPLOut :=
  let all_keys := (txn.read_set ++ txn.write_set).dedup
  match LockManager.try_acquire_all locks all_keys with
  | (false, _) => Option.none
  | (true, locks1) =>
    match readPhase db txn.read_set txn.local_buffer with
    | (buf, some e) =>
      some ⟨Except.error e, locks1, { txn with local_buffer := buf }, db⟩
    | (buf, Option.none) =>
      match computePhase txn.write_set buf with
      | (buf2, some e) =>
        some ⟨Except.error e, locks1, { txn with local_buffer := buf2 }, db⟩
      | (buf2, Option.none) =>
        let txn2 : Transaction := { txn with local_buffer := buf2 }
        match writePhase buf2 txn2.write_set db with
        | (db2, some e) => some ⟨Except.error e, locks1, txn2, db2⟩
        | (db2, Option.none) =>
          some ⟨Except.ok true, LockManager.release_all locks1 all_keys, txn2, db2⟩

/-- The metrics collector (`metrics/metrics.py`): commit and abort
counters and the response-time series. -/
structure Metrics where
  commits : Nat
  aborts : Nat
  response_times : List Rat

/-- The `Metrics.__init__`. -/
def Metrics.init : Metrics := { commits := 0, aborts := 0, response_times := [] }

/-- Result of a `Metrics.record_commit` call: the collector as mutated,
plus the exception if `txn.response_time()` raised. -/
structure MetricsOut where
  m : Metrics
  err : Option PyErr

/-- The `Metrics.record_commit` (`metrics.py` lines 13–16): increment the
commit counter, then append `txn.response_time()`.  The increment
happens first, so if `response_time` raises (uncompleted transaction)
the counter is already bumped while no sample was appended. -/
def Metrics.record_commit (m : Metrics) (txn : Transaction) : MetricsOut :=
  let m1 : Metrics := { m with commits := m.commits + 1 }
  match txn.response_time with
  | Except.error e => ⟨m1, some e⟩
  | Except.ok rt => ⟨{ m1 with response_times := m1.response_times ++ [rt] }, Option.none⟩

/-- The `Metrics.record_abort` (`metrics.py` lines 18–20). -/
def Metrics.record_abort (m : Metrics) : Metrics :=
  { m with aborts := m.aborts + 1 }

/-- The `Metrics.average_response_time` (`metrics.py` lines 26–29): 0 when
the series is empty, else its sum divided by its length. -/
def Metrics.average_response_time (m : Metrics) : Rat :=
  if m.response_times = [] then 0
  else m.response_times.sum / m.response_times.length

/-- One call made to the metrics collector by the workload driver. -/
inductive MetricsEvent where
  | commit (txn : Transaction) : MetricsEvent
  | abort : MetricsEvent

/-- Apply a sequence of `record_commit` / `record_abort` calls.  A
`record_commit` whose transaction was never completed raises; the
exception propagates to (and kills) the calling worker, ending the
sequence, with the collector keeping the mutations made so far. -/
def Metrics.applyEvents (m : Metrics) : List MetricsEvent → MetricsOut
  | [] => ⟨m, Option.none⟩
  | MetricsEvent.commit txn :: rest =>
    match Metrics.record_commit m txn with
    | ⟨m1, some e⟩ => ⟨m1, some e⟩
    | ⟨m1, Option.none⟩ => Metrics.applyEvents m1 rest
  | MetricsEvent.abort :: rest =>
    Metrics.applyEvents (Metrics.record_abort m) rest

/-- The `CCMode` (`config.py`). -/
inductive CCMode where
  | OCC : CCMode
  | TWO_PL : CCMode
deriving DecidableEq, Repr

/-- The `Config` (`config.py` lines 7–21): the six configuration fields. -/
structure Config where
  num_threads : Int
  num_transactions : Int
  contention_probability : Rat
  hotset_size : Int
  keyspace_size : Int
  mode : CCMode

/-- The `Config.__init__` (`config.py` lines 8–21): it only stores the
given values — there is no validation of any field. -/
def Config.init (num_threads num_transactions : Int)
    (contention_probability : Rat) (hotset_size keyspace_size : Int)
    (mode : CCMode) : Config :=
  { num_threads := num_threads, num_transactions := num_transactions,
    contention_probability := contention_probability,
    hotset_size := hotset_size, keyspace_size := keyspace_size, mode := mode }

namespace WorkloadExecutor

/-- The transaction built by a worker for its `i`-th logical
transaction (`workload/workload_executor.py` lines 17–21):
`Transaction(txn_id=f"{thread_id}-{i}", read_keys=[keys[0]], write_keys=[keys[1]])`. -/
def driverTxn (thread_id i : Nat) (key1 key2 : String) (now : Rat) : Transaction :=
  Transaction.create (toString thread_id ++ "-" ++ toString i) [key1] [key2] now

/-- Outcome of one worker retry loop (`workload_executor.py` lines
24–35) for a single logical transaction. -/
structure WorkerOut where
  st : OCCState
  db : Store
  metrics : Metrics
  err : Option PyErr
  committed : Bool

/-- The worker's `while True` retry loop under OCC mode
(`workload_executor.py` lines 24–35): call `occ_manager.execute(txn)`;
on success mark completion and record a commit; on failure record an
abort and re-submit the SAME transaction object — its `local_buffer`
is neither reset nor recreated.  An exception from `execute` kills the
worker thread.  `fuel` bounds the number of attempts modelled;
`committed = false` with `err = none` means the loop was still
retrying. -/
def retryLoopOCC : Nat → OCCState → Store → Metrics → Transaction → Rat → WorkerOut
  | 0, st, db, m, _, _ => ⟨st, db, m, Option.none, false⟩
  | fuel + 1, st, db, m, txn, now =>
    let out := OCCManager.execute st db txn
    match out.result with
    | Except.error e => ⟨out.st, out.db, m, some e, false⟩
    | Except.ok true =>
      match Metrics.record_commit m (Transaction.complete out.txn now) with
      | ⟨m1, some e⟩ => ⟨out.st, out.db, m1, some e, false⟩
      | ⟨m1, Option.none⟩ => ⟨out.st, out.db, m1, Option.none, true⟩
    | Except.ok false =>
      retryLoopOCC fuel out.st out.db (Metrics.record_abort m) out.txn now

end WorkloadExecutor

/-- A whole single-threaded run under OCC: submit each transaction of
the sequence once, in order; an exception ends the run, whose final
store is returned. -/
def occRunAux : List Transaction → OCCState → Store → Store
  | [], _, db => db
  | t :: ts, st, db =>
    let out := OCCManager.execute st db t
    match out.result with
    | Except.error _ => out.db
    | Except.ok _ => occRunAux ts out.st out.db

/-- A single-threaded OCC run from a fresh `OCCManager`. -/
def occRun (ts : List Transaction) (db : Store) : Store :=
  occRunAux ts OCCManager.init db

/-- A whole single-threaded run under 2PL: submit each transaction of
the sequence once, in order.  A blocked acquisition (`none`) never
exits its retry loop, so the store is never mutated again; an
exception ends the run. -/
def tplRunAux : List Transaction → LockManager.LockState → Store → Store
  | [], _, db => db
  | t :: ts, locks, db =>
    match TwoPLManager.execute locks db t with
    | Option.none => db
    | some out =>
      match out.result with
      | Except.error _ => out.db
      | Except.ok _ => tplRunAux ts out.locks out.db

/-- A single-threaded 2PL run from a fresh `LockManager`. -/
def tplRun (ts : List Transaction) (db : Store) : Store :=
  tplRunAux ts LockManager.init db

/-- The part of an executor call both protocols share: the read,
increment and write-back loops over the store, returning the final
store and the first exception (with the store as mutated when it was
raised).  Used to compare the two executors. -/
def dataStep (db : Store) (t : Transaction) : Store × Option PyErr :=
  match readPhase db t.read_set t.local_buffer with
  | (_, some e) => (db, some e)
  | (buf, Option.none) =>
    match computePhase t.write_set buf with
    | (_, some e) => (db, some e)
    | (buf2, Option.none) => writePhase buf2 t.write_set db

/-- The exception component of an executor result. -/
def errOf : Except PyErr Bool → Option PyErr
  | Except.error e => some e
  | Except.ok _ => Option.none

/-- Every transaction in the commit history carries an assigned
`commit_ts` strictly below the current counter — the invariant a fresh
`OCCManager` maintains. -/
def OCCInv (st : OCCState) : Prop :=
  ∀ c ∈ st.committed_txns, ∃ n : Int, c.commit_ts = some n ∧ n < st.timestamp

/-- Every key of the lock table is unheld. -/
def allFree (locks : LockManager.LockState) : Prop :=
  ∀ k, LockManager.locksGet locks k = false

/-- A transaction on which `complete` was never called
(`end_time = None`), exactly as `Transaction.__init__` leaves it. -/
def uncompletedTxn : Transaction := Transaction.create "t" [] [] 0

/-- A committed transaction that wrote `key0` with commit timestamp 6.
Together with a counter reading 5 this is the history shape an OCC
conflict requires — produced in the real system by a commit that
interleaves with another transaction's read phase. -/
def committedK0 : Transaction :=
  { id := "c", read_set := [], write_set := ["key0"], local_buffer := [],
    start_ts := some 4, commit_ts := some 6, start_time := 0, end_time := some 1 }

/-- An `OCCManager` state holding `committedK0` with the counter at 5:
any transaction that now starts (`start_ts = 5`) and reads `key0`
satisfies the abort condition `commit_ts 6 > start_ts 5` with
intersecting key sets. -/
def conflictState : OCCState := { committed_txns := [committedK0], timestamp := 5 }

/-- The first transaction worker 0 builds when the key selector draws
`key0` and `key1` (`workload_executor.py` lines 17–21): read set
`[key0]`, write set `[key1]`, empty local buffer. -/
def driverTxn00 : Transaction := WorkloadExecutor.driverTxn 0 0 "key0" "key1" 0

/-- A transaction shaped like a driver transaction (read `key0`, write
`key1`) whose buffer slots have been pre-populated, so that the read
and increment phases succeed and the OCC abort path is reachable. -/
def prefilledTxn : Transaction :=
  { id := "p", read_set := ["key0"], write_set := ["key1"],
    local_buffer := [("key0", PyVal.dict []), ("key1", PyVal.dict [("value", PyVal.int 10)])],
    start_ts := Option.none, commit_ts := Option.none, start_time := 0,
    end_time := Option.none }

/-- A read-only transaction with a pre-populated buffer slot, reaching
validation against `conflictState`. -/
def readOnlyPrefilledTxn : Transaction :=
  { id := "r", read_set := ["key0"], write_set := [],
    local_buffer := [("key0", PyVal.dict [])], start_ts := Option.none,
    commit_ts := Option.none, start_time := 0, end_time := Option.none }

/-- Store contents used by the concrete executions below. -/
def demoStore : Store := [("key0", PyVal.int 1), ("key1", PyVal.int 10)]

/-- A completed transaction: created at time 0, completed at time 2. -/
def completedTxn : Transaction :=
  Transaction.complete (Transaction.create "t" [] [] 0) 2

theorem lookup_alistSet_self {β : Type} (l : List (String × β)) (k : String) (v : β) :
    List.lookup k (alistSet l k v) = some v := by
  induction l with
  | nil => simp [alistSet, List.lookup]
  | cons p t ih =>
    obtain ⟨pk, pv⟩ := p
    by_cases hp : pk = k
    · simp [alistSet, hp, List.lookup]
    · have hb : (k == pk) = false := by simp [Ne.symm hp]
      simp [alistSet, hp, List.lookup, hb, ih]

theorem lookup_alistSet_ne {β : Type} (l : List (String × β)) (k k' : String) (v : β)
    (hne : k' ≠ k) : List.lookup k' (alistSet l k v) = List.lookup k' l := by
  induction l with
  | nil => simp [alistSet, List.lookup, show (k' == k) = false by simp [hne]]
  | cons p t ih =>
    obtain ⟨pk, pv⟩ := p
    by_cases hp : pk = k
    · have hb : (k' == k) = false := by simp [hne]
      have hb' : (k' == pk) = false := by simp [hp, hne]
      simp [alistSet, hp, List.lookup, hb, hb']
    · cases hkp : (k' == pk) <;> simp [alistSet, hp, List.lookup, hkp, ih]

namespace LockManager

theorem locksGet_alistSet_self (locks : LockState) (k : String) (b : Bool) :
    locksGet (alistSet locks k b) k = b := by
  unfold locksGet
  rw [lookup_alistSet_self]
  rfl

theorem locksGet_alistSet_ne (locks : LockState) (k k' : String) (b : Bool)
    (hne : k' ≠ k) : locksGet (alistSet locks k b) k' = locksGet locks k' := by
  unfold locksGet
  rw [lookup_alistSet_ne _ _ _ _ hne]

theorem locksGet_foldl_not_mem (keys : List String) (locks : LockState)
    (b : Bool) (k : String) (hk : k ∉ keys) :
    locksGet (keys.foldl (fun l k' => alistSet l k' b) locks) k = locksGet locks k := by
  induction keys generalizing locks with
  | nil => rfl
  | cons x t ih =>
    simp only [List.foldl_cons]
    have hx : k ≠ x := fun h => hk (by simp [h])
    rw [ih _ (fun h => hk (by simp [h])), locksGet_alistSet_ne _ _ _ _ hx]

theorem locksGet_foldl_mem (keys : List String) (locks : LockState)
    (b : Bool) (k : String) (hk : k ∈ keys) :
    locksGet (keys.foldl (fun l k' => alistSet l k' b) locks) k = b := by
  induction keys generalizing locks with
  | nil => simp at hk
  | cons x t ih =>
    simp only [List.foldl_cons]
    by_cases ht : k ∈ t
    · exact ih _ ht
    · have hx : k = x := by
        rcases List.mem_cons.mp hk with h | h
        · exact h
        · exact absurd h ht
      rw [locksGet_foldl_not_mem _ _ _ _ ht, hx, locksGet_alistSet_self]

end LockManager

/-- C1: `try_acquire_all` returns `True` and marks every requested key
held exactly when no requested key is currently held; when some
requested key is held it returns `False` with the whole table
unchanged — no partially-acquired set is ever observable. -/
theorem C1_try_acquire_all_atomic (locks : LockManager.LockState) (keys : List String) :
    ((LockManager.try_acquire_all locks keys).1 = true ∧
        (∀ k ∈ keys, LockManager.locksGet (LockManager.try_acquire_all locks keys).2 k = true)
      ↔ ∀ k ∈ keys, LockManager.locksGet locks k = false)
    ∧ ((∃ k ∈ keys, LockManager.locksGet locks k = true) →
        LockManager.try_acquire_all locks keys = (false, locks)) := by
  by_cases hany : (keys.any fun k => LockManager.locksGet locks k) = true
  · obtain ⟨k0, hk0, hheld⟩ := List.any_eq_true.mp hany
    have heq : LockManager.try_acquire_all locks keys = (false, locks) := by
      unfold LockManager.try_acquire_all
      rw [if_pos hany]
    refine ⟨⟨fun h => ?_, fun hall => ?_⟩, fun _ => heq⟩
    · rw [heq] at h
      exact absurd h.1 (by simp)
    · exact absurd (hall k0 hk0) (by simp [hheld])
  · have hall : ∀ k ∈ keys, LockManager.locksGet locks k = false := by
      intro k hk
      by_contra h
      rw [Bool.not_eq_false] at h
      exact hany (List.any_eq_true.mpr ⟨k, hk, h⟩)
    have heq : LockManager.try_acquire_all locks keys =
        (true, keys.foldl (fun l k => alistSet l k true) locks) := by
      unfold LockManager.try_acquire_all
      rw [if_neg hany]
    refine ⟨⟨fun _ => hall, fun _ => ?_⟩, fun hex => ?_⟩
    · rw [heq]
      exact ⟨rfl, fun k hk => LockManager.locksGet_foldl_mem keys locks true k hk⟩
    · obtain ⟨k0, hk0, hheld⟩ := hex
      exact absurd (hall k0 hk0) (by simp [hheld])

/-- Witness for C1: with key `b` already held, acquiring `{a, b}`
fails and the table is unchanged (`a` stays free). -/
theorem C1_try_acquire_all_atomic_witness :
    LockManager.try_acquire_all [("b", true)] ["a", "b"] = (false, [("b", true)]) :=
  (C1_try_acquire_all_atomic [("b", true)] ["a", "b"]).2 ⟨"b", by simp, by rfl⟩

/-- C9: `release_all` always succeeds, leaves every requested key
unheld (releasing an already-unheld key is a no-op on the observable
held-state, and other keys are untouched), and an immediately
following `try_acquire_all` of the same key set returns `True`. -/
theorem C9_release_all_spec (locks : LockManager.LockState) (keys : List String) :
    (∀ k ∈ keys, LockManager.locksGet (LockManager.release_all locks keys) k = false)
    ∧ (∀ k, k ∉ keys → LockManager.locksGet (LockManager.release_all locks keys) k
        = LockManager.locksGet locks k)
    ∧ (LockManager.try_acquire_all (LockManager.release_all locks keys) keys).1 = true := by
  refine ⟨fun k hk => LockManager.locksGet_foldl_mem keys locks false k hk,
          fun k hk => LockManager.locksGet_foldl_not_mem keys locks false k hk, ?_⟩
  have hany : (keys.any fun k =>
      LockManager.locksGet (LockManager.release_all locks keys) k) = false := by
    apply List.any_eq_false.mpr
    intro k hk
    simp [LockManager.release_all, LockManager.locksGet_foldl_mem keys locks false k hk]
  unfold LockManager.try_acquire_all
  rw [if_neg (by simp [hany])]

/-- Witness for C9 at a concrete table and key set. -/
theorem C9_release_all_spec_witness :
    (∀ k ∈ ["a", "b"], LockManager.locksGet (LockManager.release_all [("a", true)] ["a", "b"]) k = false)
    ∧ (∀ k, k ∉ ["a", "b"] → LockManager.locksGet (LockManager.release_all [("a", true)] ["a", "b"]) k
        = LockManager.locksGet [("a", true)] k)
    ∧ (LockManager.try_acquire_all (LockManager.release_all [("a", true)] ["a", "b"]) ["a", "b"]).1 = true :=
  C9_release_all_spec [("a", true)] ["a", "b"]

/-- Counterexample for C6: `Config.__init__` performs no validation.
Constructing a configuration in which every field is invalid (zero
threads and transactions, contention probability 2, zero hot set,
keyspace smaller than the hot set) is not rejected — it returns a
`Config` carrying exactly those values. -/
theorem C6_counterexample_no_validation :
    (Config.init 0 0 2 0 (-1) CCMode.OCC).num_threads = 0
    ∧ (Config.init 0 0 2 0 (-1) CCMode.OCC).contention_probability = 2
    ∧ (Config.init 0 0 2 0 (-1) CCMode.OCC).keyspace_size
        < (Config.init 0 0 2 0 (-1) CCMode.OCC).hotset_size :=
  ⟨rfl, rfl, by decide⟩

/-- C6 (amended): configuration construction performs no validation at
all — any field values, invalid ones included, are accepted and stored
verbatim; nothing is rejected at construction time. -/
theorem C6_config_stores_verbatim (nt ntx : Int) (cp : Rat) (hs ks : Int) (m : CCMode) :
    (Config.init nt ntx cp hs ks m).num_threads = nt
    ∧ (Config.init nt ntx cp hs ks m).num_transactions = ntx
    ∧ (Config.init nt ntx cp hs ks m).contention_probability = cp
    ∧ (Config.init nt ntx cp hs ks m).hotset_size = hs
    ∧ (Config.init nt ntx cp hs ks m).keyspace_size = ks
    ∧ (Config.init nt ntx cp hs ks m).mode = m :=
  ⟨rfl, rfl, rfl, rfl, rfl, rfl⟩

theorem applyEvents_commits_eq_samples (evs : List MetricsEvent) (m : Metrics)
    (hm : m.commits = m.response_times.length)
    (h : ∀ t, MetricsEvent.commit t ∈ evs → t.end_time ≠ Option.none) :
    (Metrics.applyEvents m evs).err = Option.none
    ∧ (Metrics.applyEvents m evs).m.commits
        = (Metrics.applyEvents m evs).m.response_times.length := by
  induction evs generalizing m with
  | nil => exact ⟨rfl, hm⟩
  | cons e rest ih =>
    cases e with
    | commit t =>
      obtain ⟨et, ht⟩ : ∃ et, t.end_time = some et := by
        cases ht : t.end_time with
        | none => exact absurd ht (h t (by simp))
        | some et => exact ⟨et, rfl⟩
      simp only [Metrics.applyEvents, Metrics.record_commit, Transaction.response_time, ht]
      exact ih _ (by simp [hm]) (fun t' ht' => h t' (by simp [ht']))
    | abort =>
      simp only [Metrics.applyEvents]
      exact ih _ (by simpa [Metrics.record_abort] using hm)
        (fun t' ht' => h t' (by simp [ht']))

/-- Counterexample for C10: a `record_commit` call with a transaction
that was never completed bumps the commit counter, then raises
`TypeError` evaluating `response_time` before anything is appended —
afterwards the commit counter (1) differs from the length of the
response-time series (0), so the claimed equality fails for this call
sequence. -/
theorem C10_counterexample_commit_without_sample :
    (Metrics.applyEvents Metrics.init [MetricsEvent.commit uncompletedTxn]).m.commits = 1
    ∧ (Metrics.applyEvents Metrics.init [MetricsEvent.commit uncompletedTxn]).m.response_times.length = 0
    ∧ (Metrics.applyEvents Metrics.init [MetricsEvent.commit uncompletedTxn]).err
        = some PyErr.typeError :=
  ⟨rfl, rfl, rfl⟩

/-- C10 (amended): after any sequence of `record_abort` calls and of
`record_commit` calls whose transactions were completed, no call
raises, the commit counter equals the length of the response-time
series (each commit appends exactly one sample, aborts append none),
and `average_response_time` is the series' sum divided by the commit
counter — 0 when no commit was recorded. -/
theorem C10_metrics_commits_eq_samples (evs : List MetricsEvent)
    (h : ∀ t, MetricsEvent.commit t ∈ evs → t.end_time ≠ Option.none) :
    (Metrics.applyEvents Metrics.init evs).err = Option.none
    ∧ (Metrics.applyEvents Metrics.init evs).m.commits
        = (Metrics.applyEvents Metrics.init evs).m.response_times.length
    ∧ (Metrics.applyEvents Metrics.init evs).m.average_response_time
        = (if (Metrics.applyEvents Metrics.init evs).m.commits = 0 then 0
           else (Metrics.applyEvents Metrics.init evs).m.response_times.sum
                  / ((Metrics.applyEvents Metrics.init evs).m.commits : Rat)) := by
  obtain ⟨herr, hcl⟩ := applyEvents_commits_eq_samples evs Metrics.init rfl h
  refine ⟨herr, hcl, ?_⟩
  by_cases he : (Metrics.applyEvents Metrics.init evs).m.response_times = []
  · have hz : (Metrics.applyEvents Metrics.init evs).m.commits = 0 := by
      rw [hcl, he]
      rfl
    simp [Metrics.average_response_time, he, hz]
  · have hz : (Metrics.applyEvents Metrics.init evs).m.commits ≠ 0 := by
      rw [hcl]
      simpa using he
    rw [Metrics.average_response_time, if_neg he, if_neg hz, hcl]

/-- Witness for C10 (amended): one completed commit and one abort give
commit counter 1, one sample, and that sample as the average. -/
theorem C10_metrics_commits_eq_samples_witness :
    (Metrics.applyEvents Metrics.init [MetricsEvent.commit completedTxn, MetricsEvent.abort]).err = Option.none
    ∧ (Metrics.applyEvents Metrics.init [MetricsEvent.commit completedTxn, MetricsEvent.abort]).m.commits
        = (Metrics.applyEvents Metrics.init [MetricsEvent.commit completedTxn, MetricsEvent.abort]).m.response_times.length
    ∧ (Metrics.applyEvents Metrics.init [MetricsEvent.commit completedTxn, MetricsEvent.abort]).m.average_response_time
        = (if (Metrics.applyEvents Metrics.init [MetricsEvent.commit completedTxn, MetricsEvent.abort]).m.commits = 0 then 0
           else (Metrics.applyEvents Metrics.init [MetricsEvent.commit completedTxn, MetricsEvent.abort]).m.response_times.sum
                  / ((Metrics.applyEvents Metrics.init [MetricsEvent.commit completedTxn, MetricsEvent.abort]).m.commits : Rat)) :=
  C10_metrics_commits_eq_samples [MetricsEvent.commit completedTxn, MetricsEvent.abort]
    (by
      intro t ht
      rcases List.mem_cons.mp ht with h1 | h1
      · obtain rfl : t = completedTxn := by injection h1
        simp [completedTxn, Transaction.complete]
      · rcases List.mem_cons.mp h1 with h2 | h2
        · exact MetricsEvent.noConfusion h2
        · simp at h2)

theorem locksGet_init (k : String) : LockManager.locksGet LockManager.init k = false := rfl

theorem any_locksGet_init (keys : List String) :
    (keys.any fun k => LockManager.locksGet LockManager.init k) = false := by
  apply List.any_eq_false.mpr
  intro k _
  rw [locksGet_init k]
  exact Bool.false_ne_true

theorem try_acquire_all_init (keys : List String) :
    LockManager.try_acquire_all LockManager.init keys
      = (true, keys.foldl (fun l k => alistSet l k true) LockManager.init) := by
  unfold LockManager.try_acquire_all
  rw [any_locksGet_init]
  rfl

/-- C2 (the code at the failing input): the claim's abort condition
holds — `validate` rejects the start-stamped transaction, since
`committedK0` has `commit_ts 6 > start_ts 5` and its write set meets
the read set — yet `execute` does not return `False`: it raises
`KeyError` in the read phase (`txn.local_buffer["key0"]` on the empty
buffer of the freshly constructed transaction) before validation is
ever reached. -/
theorem C2_code_bug_raises_instead_of_aborting :
    OCCManager.validate conflictState.committed_txns
        { driverTxn00 with start_ts := some conflictState.timestamp } = Except.ok false
    ∧ (OCCManager.execute conflictState demoStore driverTxn00).result
        = Except.error PyErr.keyError :=
  ⟨rfl, rfl⟩

/-- C3 (the code at the failing input): a driver-shaped transaction
(read `key0`, write `key1`, empty buffer) against a free lock table
acquires its locks and then raises `KeyError` in the read phase —
`TwoPLManager.execute` neither blocks nor returns `True`, for any
store contents. -/
theorem C3_code_bug_tpl_raises (db : Store) :
    (TwoPLManager.execute LockManager.init db driverTxn00).map TPLOut.result
      = some (Except.error PyErr.keyError) := rfl

/-- C7 (the code at the failing inputs): every transaction the driver
builds raises `KeyError` in the read phase under either executor —
under OCC against any manager state and store, and under 2PL from a
free lock table — so a worker dies on its first attempt and a run
records 0 commits, never `num_transactions` of them. -/
theorem C7_code_bug_no_attempt_commits (st : OCCState) (db : Store)
    (tid i : Nat) (k1 k2 : String) (now : Rat) :
    (OCCManager.execute st db (WorkloadExecutor.driverTxn tid i k1 k2 now)).result
        = Except.error PyErr.keyError
    ∧ (TwoPLManager.execute LockManager.init db
          (WorkloadExecutor.driverTxn tid i k1 k2 now)).map TPLOut.result
        = some (Except.error PyErr.keyError) := by
  constructor
  · rfl
  · simp only [TwoPLManager.execute, try_acquire_all_init, WorkloadExecutor.driverTxn,
      Transaction.create, readPhase, bufSetValue, List.lookup]
    rfl

/-- C5 (the code at the failing input): the worker's retry loop
re-submits the aborted transaction object itself, without resetting or
recreating its `local_buffer`.  Against `conflictState` the first
attempt of `prefilledTxn` increments its buffered value for write-key
`key1` from 10 to 11 and aborts; the retry then increments the stale
11 again and commits 12 to the store — one abort plus one commit
yield a double increment, observable stale reuse.  (Driver-created
transactions never even get here: their empty buffers make the first
attempt raise `KeyError`.) -/
theorem C5_code_bug_stale_buffer_reused :
    Store.get (WorkloadExecutor.retryLoopOCC 3 conflictState demoStore Metrics.init prefilledTxn 1).db "key1"
        = PyVal.dict [("value", PyVal.int 12)]
    ∧ (WorkloadExecutor.retryLoopOCC 3 conflictState demoStore Metrics.init prefilledTxn 1).metrics.aborts = 1
    ∧ (WorkloadExecutor.retryLoopOCC 3 conflictState demoStore Metrics.init prefilledTxn 1).metrics.commits = 1
    ∧ (WorkloadExecutor.retryLoopOCC 3 conflictState demoStore Metrics.init prefilledTxn 1).committed = true :=
  ⟨rfl, rfl, rfl, rfl⟩

/-- C4: whenever OCC validation fails — the read and increment phases
completed and `validate` rejects the start-stamped transaction —
`execute` returns `False` with the store untouched (no writes
performed), the timestamp counter advanced by exactly the single
start-timestamp increment, and the commit history unchanged. -/
theorem C4_failed_validation_aborts_cleanly (st : OCCState) (db : Store)
    (txn : Transaction) (buf1 buf2 : List (String × PyVal))
    (hread : readPhase db txn.read_set txn.local_buffer = (buf1, Option.none))
    (hcomp : computePhase txn.write_set buf1 = (buf2, Option.none))
    (hval : OCCManager.validate st.committed_txns
        { txn with start_ts := some st.timestamp, local_buffer := buf2 }
        = Except.ok false) :
    OCCManager.execute st db txn =
      ⟨Except.ok false,
       { txn with start_ts := some st.timestamp, local_buffer := buf2 },
       { st with timestamp := st.timestamp + 1 }, db⟩ := by
  unfold OCCManager.execute
  dsimp only
  simp only [hread, hcomp, hval]

/-- Witness for C4: a read-only transaction with a pre-populated
buffer slot runs its phases, fails validation against
`conflictState` (commit timestamp 6 > start timestamp 5, write set
meets read set), and aborts leaving store, history and counter (+1)
exactly as stated. -/
theorem C4_failed_validation_aborts_cleanly_witness :
    OCCManager.execute conflictState demoStore readOnlyPrefilledTxn =
      ⟨Except.ok false,
       { readOnlyPrefilledTxn with start_ts := some conflictState.timestamp, local_buffer := [("key0", PyVal.dict [("value", PyVal.int 1)])] },
       { conflictState with timestamp := conflictState.timestamp + 1 }, demoStore⟩ :=
  C4_failed_validation_aborts_cleanly conflictState demoStore readOnlyPrefilledTxn
    [("key0", PyVal.dict [("value", PyVal.int 1)])]
    [("key0", PyVal.dict [("value", PyVal.int 1)])] rfl rfl rfl

theorem try_acquire_all_free (locks : LockManager.LockState) (keys : List String)
    (hfree : allFree locks) :
    LockManager.try_acquire_all locks keys
      = (true, keys.foldl (fun l k => alistSet l k true) locks) := by
  unfold LockManager.try_acquire_all
  have hany : (keys.any fun k => LockManager.locksGet locks k) = false := by
    apply List.any_eq_false.mpr
    intro k _
    rw [hfree k]
    exact Bool.false_ne_true
  rw [hany]
  rfl

theorem allFree_release_after_acquire (locks : LockManager.LockState)
    (keys : List String) (hfree : allFree locks) :
    allFree (LockManager.release_all
      (keys.foldl (fun l k => alistSet l k true) locks) keys) := by
  intro k
  unfold LockManager.release_all
  by_cases hk : k ∈ keys
  · exact LockManager.locksGet_foldl_mem keys _ false k hk
  · rw [LockManager.locksGet_foldl_not_mem keys _ false k hk,
      LockManager.locksGet_foldl_not_mem keys locks true k hk]
    exact hfree k

theorem validate_true_of_le (committed : List Transaction) (txn : Transaction)
    (s : Int) (hts : txn.start_ts = some s)
    (h : ∀ c ∈ committed, ∃ n : Int, c.commit_ts = some n ∧ n ≤ s) :
    OCCManager.validate committed txn = Except.ok true := by
  induction committed with
  | nil => rfl
  | cons c rest ih =>
    obtain ⟨n, hc, hn⟩ := h c (by simp)
    unfold OCCManager.validate
    rw [hc, hts]
    simp only [pyGt]
    rw [decide_eq_false (by omega : ¬ n > s)]
    exact ih (fun c2 hc2 => h c2 (by simp [hc2]))

theorem errOf_eq_none (r : Except PyErr Bool) (h : errOf r = Option.none) :
    ∃ b, r = Except.ok b := by
  cases r with
  | ok b => exact ⟨b, rfl⟩
  | error e => exact Option.noConfusion h

theorem errOf_eq_some (r : Except PyErr Bool) (e : PyErr) (h : errOf r = some e) :
    r = Except.error e := by
  cases r with
  | ok b => exact Option.noConfusion h
  | error e2 =>
    have : e2 = e := Option.some.inj h
    rw [this]

theorem occ_execute_spec (st : OCCState) (db : Store) (t : Transaction)
    (hinv : OCCInv st) :
    ((OCCManager.execute st db t).db, errOf (OCCManager.execute st db t).result)
        = dataStep db t
    ∧ OCCInv (OCCManager.execute st db t).st := by
  have hinv1 : ∀ c ∈ st.committed_txns, ∃ n : Int, c.commit_ts = some n ∧ n ≤ st.timestamp := by
    intro c hc
    obtain ⟨n, h1, h2⟩ := hinv c hc
    exact ⟨n, h1, le_of_lt h2⟩
  unfold OCCManager.execute dataStep
  dsimp only
  rcases hr : readPhase db t.read_set t.local_buffer with ⟨buf, oe⟩
  cases oe with
  | some e =>
    simp only [hr]
    refine ⟨rfl, ?_⟩
    intro c hc
    obtain ⟨n, h1, h2⟩ := hinv c hc
    exact ⟨n, h1, show n < st.timestamp + 1 by omega⟩
  | none =>
    simp only [hr]
    rcases hc : computePhase t.write_set buf with ⟨buf2, oe2⟩
    cases oe2 with
    | some e =>
      simp only [hc]
      refine ⟨rfl, ?_⟩
      intro c hcm
      obtain ⟨n, h1, h2⟩ := hinv c hcm
      exact ⟨n, h1, show n < st.timestamp + 1 by omega⟩
    | none =>
      simp only [hc]
      rw [validate_true_of_le st.committed_txns _ st.timestamp rfl hinv1]
      rcases hw : writePhase buf2 t.write_set db with ⟨db2, oe3⟩
      cases oe3 with
      | some e =>
        simp only [hw]
        refine ⟨rfl, ?_⟩
        intro c hcm
        obtain ⟨n, h1, h2⟩ := hinv c hcm
        exact ⟨n, h1, show n < st.timestamp + 1 by omega⟩
      | none =>
        simp only [hw]
        refine ⟨rfl, ?_⟩
        intro c hcm
        rcases List.mem_append.mp hcm with hold | hnew
        · obtain ⟨n, h1, h2⟩ := hinv c hold
          exact ⟨n, h1, show n < st.timestamp + 1 + 1 by omega⟩
        · rcases List.mem_singleton.mp hnew with rfl
          exact ⟨st.timestamp + 1, rfl, show st.timestamp + 1 < st.timestamp + 1 + 1 by omega⟩

theorem tpl_execute_spec (locks : LockManager.LockState) (db : Store)
    (t : Transaction) (hfree : allFree locks) :
    ∃ out : TPLOut, TwoPLManager.execute locks db t = some out
      ∧ (out.db, errOf out.result) = dataStep db t
      ∧ ((dataStep db t).2 = Option.none → allFree out.locks) := by
  unfold TwoPLManager.execute dataStep
  dsimp only
  rw [try_acquire_all_free locks _ hfree]
  rcases hr : readPhase db t.read_set t.local_buffer with ⟨buf, oe⟩
  cases oe with
  | some e =>
    simp only [hr]
    exact ⟨_, rfl, rfl, fun h => Option.noConfusion h⟩
  | none =>
    simp only [hr]
    rcases hc : computePhase t.write_set buf with ⟨buf2, oe2⟩
    cases oe2 with
    | some e =>
      simp only [hc]
      exact ⟨_, rfl, rfl, fun h => Option.noConfusion h⟩
    | none =>
      simp only [hc]
      rcases hw : writePhase buf2 t.write_set db with ⟨db2, oe3⟩
      cases oe3 with
      | some e =>
        simp only [hw]
        exact ⟨_, rfl, rfl, fun h => Option.noConfusion h⟩
      | none =>
        simp only [hw]
        exact ⟨_, rfl, rfl,
          fun _ => allFree_release_after_acquire locks _ hfree⟩

theorem occRunAux_eq_tplRunAux (ts : List Transaction) (st : OCCState)
    (locks : LockManager.LockState) (db : Store)
    (hinv : OCCInv st) (hfree : allFree locks) :
    occRunAux ts st db = tplRunAux ts locks db := by
  induction ts generalizing st locks db with
  | nil => rfl
  | cons t rest ih =>
    obtain ⟨hop, hoinv⟩ := occ_execute_spec st db t hinv
    obtain ⟨out, hout, htp, htf⟩ := tpl_execute_spec locks db t hfree
    have hdb : (OCCManager.execute st db t).db = out.db :=
      congrArg Prod.fst (hop.trans htp.symm)
    have herr : errOf (OCCManager.execute st db t).result = errOf out.result :=
      congrArg Prod.snd (hop.trans htp.symm)
    cases hres : (OCCManager.execute st db t).result with
    | error e =>
      have hres2 : out.result = Except.error e := by
        apply errOf_eq_some
        rw [← herr, hres]
        rfl
      simp only [occRunAux, tplRunAux, hout, hres, hres2]
      exact hdb
    | ok b =>
      have hnone : errOf out.result = Option.none := by
        rw [← herr, hres]
        rfl
      obtain ⟨b2, hres2⟩ := errOf_eq_none out.result hnone
      have hds2 : (dataStep db t).2 = Option.none := by
        rw [← htp, hres2]
        rfl
      have hfree2 : allFree out.locks := htf hds2
      simp only [occRunAux, tplRunAux, hout, hres, hres2]
      rw [hdb]
      exact ih (OCCManager.execute st db t).st out.locks out.db hoinv hfree2

/-- C8: with a single worker (fully sequential execution), running any
fixed transaction sequence under the OCC executor (fresh `OCCManager`)
and under the 2PL executor (fresh `LockManager`) from the same initial
store produces identical final store state. -/
theorem C8_serial_equivalence (ts : List Transaction) (db : Store) :
    occRun ts db = tplRun ts db :=
  occRunAux_eq_tplRunAux ts OCCManager.init LockManager.init db
    (fun c hc => absurd hc (List.not_mem_nil c)) (fun _ => rfl)
